import Mathlib

/-!
# Verification of the hackathon chatbot core (chunker + knowledge store + chat handler)

Shallow embedding of `src/backend/document_processor.py`,
`src/backend/knowledge_base.py` and `src/backend/chat_handler.py`.

Python strings are modelled as `String`/`List Char`, Python ints as `Int`
(or `Nat` where the source only ever produces non-negative values), Python
dicts as insertion-ordered association lists, and fallible external calls
(the sentence-transformer encoder, the Databricks LLM endpoint) as
`Except`-valued parameters.
-/

set_option maxHeartbeats 1000000

namespace HackChatbot

/-! ## Python string primitives used by `_create_chunks`

`str.rfind` and slicing accept arbitrary `int` indices; Python adjusts a
negative index by adding the length and then clamps into `[0, len]`.
These helpers reproduce that adjustment exactly, since the chunking loop
can in fact drive its cursor negative. -/

/-- Python slice-index adjustment: a negative index counts from the end
(clamped below at 0), a non-negative one is clamped above at `len`. -/
def pySliceIdx (len : Nat) (i : Int) : Nat :=
  if i < 0 then ((len : Int) + i).toNat else min len i.toNat

/-- Python `text[a:b]` for a character list. -/
def pySlice (text : List Char) (a b : Int) : List Char :=
  let lo := pySliceIdx text.length a
  let hi := pySliceIdx text.length b
  (text.drop lo).take (hi - lo)

/-- Python `text.rfind(c, a, b)` for a single-character needle: the largest
index `i` with `a ≤ i < b` (after slice adjustment) such that `text[i] = c`,
or `-1` if there is none. -/
def pyRfind (text : List Char) (c : Char) (a b : Int) : Int :=
  let lo := pySliceIdx text.length a
  let hi := pySliceIdx text.length b
  match ((List.range' lo (hi - lo)).filter (fun i => text.getD i ' ' == c)).getLast? with
  | some i => (i : Int)
  | none => -1

/-- Python `str.strip()` on a character list. -/
def pyStrip (l : List Char) : List Char :=
  ((l.dropWhile Char.isWhitespace).reverse.dropWhile Char.isWhitespace).reverse

/-! ## `DocumentProcessor` (src/backend/document_processor.py) -/

/-- `DocumentProcessor.__init__` (lines 11-13) just stores `chunk_size` and
`overlap`; the body performs no validation of any kind. -/
structure DocumentProcessor where
  chunk_size : Int
  overlap : Int
deriving DecidableEq

/-- The constructor `DocumentProcessor(chunk_size, overlap)`: two plain
attribute assignments. -/
def DocumentProcessor.init (chunk_size : Int) (overlap : Int) : DocumentProcessor :=
  { chunk_size := chunk_size, overlap := overlap }

/-- One iteration of the `while` body of `_create_chunks` (lines 80-104),
starting from cursor `start`: computes the (boundary-adjusted) `end`,
and returns the stripped chunk `text[start:end]` together with the next
cursor value `end - overlap`. -/
def createChunksStep (chunk_size overlap : Int) (text : List Char) (start : Int) :
    List Char × Int :=
  let len : Int := text.length
  let end0 := start + chunk_size
  let e :=
    if end0 < len then
      let sentence_end := pyRfind text '.' start end0
      if sentence_end > start then sentence_end + 1
      else
        let word_end := pyRfind text ' ' start end0
        if word_end > start then word_end else end0
    else end0
  (pyStrip (pySlice text start e), e - overlap)

/-- The `while start < len(text)` loop of `_create_chunks`, with explicit
fuel (the Python loop has no bound of its own; `none` means the given fuel
was exhausted before the loop exited). After the body, `start >= len(text)`
triggers the `# Avoid infinite loop` break. -/
def createChunksLoop (chunk_size overlap : Int) (text : List Char) :
    Nat → Int → List (List Char) → Option (List (List Char))
  | 0, _, _ => none
  | fuel + 1, start, chunks =>
    if start < (text.length : Int) then
      let p := createChunksStep chunk_size overlap text start
      let chunks' := if p.1 ≠ [] then chunks ++ [p.1] else chunks
      if p.2 ≥ (text.length : Int) then some chunks'
      else createChunksLoop chunk_size overlap text fuel p.2 chunks'
    else some chunks

/-- `DocumentProcessor._create_chunks` (lines 72-106): texts no longer than
`chunk_size` are returned whole; otherwise the chunking loop runs from
cursor 0. -/
def createChunks (chunk_size overlap : Int) (text : List Char) (fuel : Nat) :
    Option (List (List Char)) :=
  if (text.length : Int) ≤ chunk_size then some [text]
  else createChunksLoop chunk_size overlap text fuel 0 []

/-! ### C1: termination of the chunking loop -/

/-- On `"ab.cdefgh"` with `chunk_size = 5`, `overlap = 3`, one loop
iteration from cursor 0 pulls `end` back to the sentence boundary at 3 and
returns the cursor to `3 - 3 = 0`: the iteration does not advance. -/
theorem createChunksStep_fixed :
    createChunksStep 5 3 ("ab.cdefgh".toList) 0 = ("ab.".toList, 0) := by
  decide

theorem createChunksLoop_stuck (fuel : Nat) :
    ∀ chunks, createChunksLoop 5 3 ("ab.cdefgh".toList) fuel 0 chunks = none := by
  induction fuel with
  | zero => intro chunks; rfl
  | succ n ih =>
    intro chunks
    show createChunksLoop 5 3 ("ab.cdefgh".toList) n 0 (chunks ++ ["ab.".toList]) = none
    exact ih (chunks ++ ["ab.".toList])

/-- C1: the claim that `_create_chunks` terminates for every text longer
than `chunk_size` (given `0 ≤ overlap < chunk_size`) is false: on the
9-character input `"ab.cdefgh"` with `chunk_size = 5` and `overlap = 3`
the loop never exits — no amount of fuel makes it finish, because the
sentence-boundary adjustment moves `end` back to 3 and the cursor
`end - overlap` returns to 0 on every iteration.  The exit conditions in
the source (`start < len(text)` and the `start >= len(text)` break) do not
guard against this non-advancing iteration. -/
theorem createChunks_diverges_C1 (fuel : Nat) :
    createChunks 5 3 ("ab.cdefgh".toList) fuel = none := by
  show createChunksLoop 5 3 ("ab.cdefgh".toList) fuel 0 [] = none
  exact createChunksLoop_stuck fuel []

/-! ### C4: constructor validation -/

/-- C4 counterexample: constructing the chunker with `overlap = 10 ≥
5 = chunk_size` is not rejected — `DocumentProcessor.__init__` succeeds and
simply stores the invalid configuration. -/
theorem init_accepts_invalid_config_C4 :
    DocumentProcessor.init 5 10 = { chunk_size := 5, overlap := 10 } := rfl

/-- C4 (amended): the chunker's constructor performs no validation at all:
for every pair `(chunk_size, overlap)` — including every pair with
`overlap ≥ chunk_size` — construction succeeds and stores the values
unchanged; the constructor has no failure mode. -/
theorem init_no_validation_C4 (chunk_size overlap : Int) :
    (DocumentProcessor.init chunk_size overlap).chunk_size = chunk_size ∧
    (DocumentProcessor.init chunk_size overlap).overlap = overlap :=
  ⟨rfl, rfl⟩

/-! ## `KnowledgeBase` (src/backend/knowledge_base.py)

Python dicts are modelled as insertion-ordered association lists with
unique keys: assignment `d[k] = v` updates in place when `k` is present and
appends otherwise; `del d[k]` removes the entry; iteration follows list
order, exactly like `dict` iteration order in Python 3.7+.

The sentence-transformer encoder and sklearn's `cosine_similarity` are
external libraries; they enter the model as parameters (`encode`, an
`Except`-valued call that can fail, and `sim`, a pure rational-valued
similarity function). -/

/-- Python `d[k] = v` on an insertion-ordered dict. -/
def dictInsert {α : Type} (k : String) (v : α) (d : List (String × α)) : List (String × α) :=
  if d.any (fun p => p.1 == k) then d.map (fun p => if p.1 == k then (k, v) else p)
  else d ++ [(k, v)]

/-- Python `del d[k]` (guarded by `if k in d`, so absent keys are a no-op). -/
def dictDelete {α : Type} (k : String) (d : List (String × α)) : List (String × α) :=
  d.filter (fun p => !(p.1 == k))

/-- The key list of a dict, in iteration order. -/
def dictKeys {α : Type} (d : List (String × α)) : List String :=
  d.map Prod.fst

/-- One entry of `documents_data`: the per-chunk metadata dict built by
`add_document` (lines 78-83). -/
structure Chunk where
  filename : String
  chunk_index : Nat
  text : String
  chunk_size : Nat
deriving DecidableEq, Inhabited

/-- In-memory state of `KnowledgeBase`: the text-metadata map
`documents_data` and the embedding-vector map `embeddings_data`. -/
structure KnowledgeBase where
  documents_data : List (String × Chunk)
  embeddings_data : List (String × List ℚ)
deriving DecidableEq

/-- The two persisted files (`documents.json`, `embeddings.pkl`).  `none`
models a missing or unparsable file — `_load_documents` and
`_load_embeddings` each independently fall back to `{}` in that case
(lines 39-57), and `_save_documents`/`_save_embeddings` each overwrite one
file with the corresponding in-memory map. -/
structure Storage where
  documents_file : Option (List (String × Chunk))
  embeddings_file : Option (List (String × List ℚ))
deriving DecidableEq

/-- `KnowledgeBase.__init__` data loading (lines 31-33): each map is loaded
from its own file, independently defaulting to empty. -/
def loadKnowledgeBase (s : Storage) : KnowledgeBase :=
  { documents_data := s.documents_file.getD []
    embeddings_data := s.embeddings_file.getD [] }

/-- The chunk key `f"{filename}_chunk_{i}"` (line 77). -/
def chunkKey (filename : String) (i : Nat) : String :=
  filename ++ "_chunk_" ++ Nat.repr i

/-- The metadata dict stored for chunk `i` (lines 78-83). -/
def mkChunk (filename : String) (i : Nat) (c : String) : Chunk :=
  { filename := filename, chunk_index := i, text := c, chunk_size := c.length }

/-- The `for i, chunk in enumerate(text_chunks)` loop of `add_document`
(lines 76-84): inserts chunk `i` under `chunkKey filename i` into both
maps.  `none` models the `IndexError` raised by `embeddings[i]` if the
encoder returned fewer vectors than there are chunks. -/
def insertChunks (filename : String) :
    Nat → List String → List (List ℚ) →
    List (String × Chunk) → List (String × List ℚ) →
    Option (List (String × Chunk) × List (String × List ℚ))
  | _, [], _, dd, ed => some (dd, ed)
  | _, _ :: _, [], _, _ => none
  | i, c :: cs, e :: es, dd, ed =>
    insertChunks filename (i + 1) cs es
      (dictInsert (chunkKey filename i) (mkChunk filename i c) dd)
      (dictInsert (chunkKey filename i) e ed)

/-- `KnowledgeBase.add_document` (lines 69-93): encode all chunks (a call
that can fail), insert each chunk into both maps, then save both maps.
Any exception is re-raised with the `"Error adding document ..."` prefix. -/
def add_document (encode : List String → Except String (List (List ℚ)))
    (kb : KnowledgeBase) (filename : String) (text_chunks : List String) :
    Except String (KnowledgeBase × Storage) :=
  match encode text_chunks with
  | .error e => .error ("Error adding document to knowledge base: " ++ e)
  | .ok embeddings =>
    match insertChunks filename 0 text_chunks embeddings
        kb.documents_data kb.embeddings_data with
    | none => .error "Error adding document to knowledge base: list index out of range"
    | some (dd, ed) =>
      .ok ({ documents_data := dd, embeddings_data := ed },
           { documents_file := some dd, embeddings_file := some ed })

/-- The order used to argsort `(index, similarity)` pairs ascending by
similarity, ties broken by index: this is exactly the permutation a stable
ascending sort of the similarity array produces. -/
def pairLE (p q : Nat × ℚ) : Prop :=
  p.2 < q.2 ∨ (p.2 = q.2 ∧ p.1 ≤ q.1)

instance : DecidableRel pairLE := fun p q => by
  unfold pairLE; infer_instance

instance : IsTotal (Nat × ℚ) pairLE := by
  constructor
  intro a b
  rcases lt_trichotomy a.2 b.2 with h | h | h
  · exact Or.inl (Or.inl h)
  · rcases Nat.le_total a.1 b.1 with h' | h'
    · exact Or.inl (Or.inr ⟨h, h'⟩)
    · exact Or.inr (Or.inr ⟨h.symm, h'⟩)
  · exact Or.inr (Or.inl h)

instance : IsTrans (Nat × ℚ) pairLE := by
  constructor
  intro a b c hab hbc
  rcases hab with h | ⟨he, hi⟩
  · rcases hbc with h' | ⟨he', _⟩
    · exact Or.inl (h.trans h')
    · exact Or.inl (he' ▸ h)
  · rcases hbc with h' | ⟨he', hi'⟩
    · exact Or.inl (he ▸ h')
    · exact Or.inr ⟨he.trans he', hi.trans hi'⟩

/-- Model of `np.argsort(similarities)` (line 116): the list of indices of
`l` sorted ascending by value.  NumPy's tie order for the default sort kind
is the insertion order for the array sizes arising here; the model uses the
stable ascending permutation (ties in index order). -/
def argsortAsc (l : List ℚ) : List Nat :=
  (List.insertionSort pairLE l.enum).map Prod.fst

/-- The `try`-block body of `KnowledgeBase.search_similar` (lines 97-131):
empty-store check, query encoding (which can fail), full scan of
`embeddings_data` building the `similarities`/`chunk_ids` arrays, argsort
descending truncated to `n_results`, and conversion of each selected entry
to a `(text, filename, 1 - similarity)` triple. -/
def searchSimilarBody (encode : String → Except String (List ℚ))
    (sim : List ℚ → List ℚ → ℚ) (kb : KnowledgeBase)
    (query : String) (n_results : Nat) :
    Except String (List String × List String × List ℚ) :=
  if kb.documents_data = [] ∨ kb.embeddings_data = [] then .ok ([], [], [])
  else
    match encode query with
    | .error e => .error e
    | .ok query_embedding =>
      let filtered := kb.embeddings_data.filter
        (fun p => (kb.documents_data.lookup p.1).isSome)
      let chunk_ids := filtered.map Prod.fst
      let similarities := filtered.map (fun p => sim query_embedding p.2)
      let sorted_indices := ((argsortAsc similarities).reverse).take n_results
      let results := sorted_indices.map (fun idx =>
        let cid := chunk_ids.getD idx ""
        let dd := (kb.documents_data.lookup cid).getD default
        (dd.text, dd.filename, 1 - similarities.getD idx 0))
      .ok (results.map (fun r => r.1), results.map (fun r => r.2.1),
           results.map (fun r => r.2.2))

/-- `KnowledgeBase.search_similar` (lines 95-135): the surrounding
`try/except` catches every error from the body, logs it, and returns three
empty lists. -/
def search_similar (encode : String → Except String (List ℚ))
    (sim : List ℚ → List ℚ → ℚ) (kb : KnowledgeBase)
    (query : String) (n_results : Nat) :
    List String × List String × List ℚ :=
  match searchSimilarBody encode sim kb query n_results with
  | .ok r => r
  | .error _ => ([], [], [])

/-- `KnowledgeBase.remove_document` (lines 137-160): collect the keys of
all chunks whose `filename` matches, delete them from both maps, and save
both maps only when at least one chunk was removed. -/
def remove_document (kb : KnowledgeBase) (s : Storage) (filename : String) :
    KnowledgeBase × Storage :=
  let chunk_ids_to_remove :=
    (kb.documents_data.filter (fun p => p.2.filename == filename)).map Prod.fst
  let dd := chunk_ids_to_remove.foldl (fun d k => dictDelete k d) kb.documents_data
  let ed := chunk_ids_to_remove.foldl (fun d k => dictDelete k d) kb.embeddings_data
  if chunk_ids_to_remove = [] then
    ({ documents_data := dd, embeddings_data := ed }, s)
  else
    ({ documents_data := dd, embeddings_data := ed },
     { documents_file := some dd, embeddings_file := some ed })

/-- `KnowledgeBase.clear_all` (lines 184-198): reset both maps to empty and
persist the empty state. -/
def clear_all (_kb : KnowledgeBase) : KnowledgeBase × Storage :=
  ({ documents_data := [], embeddings_data := [] },
   { documents_file := some [], embeddings_file := some [] })

/-- A value of one of the per-document stats dicts built by
`list_documents` (strings or counts). -/
inductive StatVal where
  | s (v : String)
  | n (v : Nat)
deriving DecidableEq

/-- Accumulator entry of the grouping loop of `list_documents`. -/
structure DocStats where
  filename : String
  chunk_count : Nat
  total_size : Nat
deriving DecidableEq

/-- One step of the grouping loop of `list_documents` (lines 167-176):
initialise the entry for a first-seen filename, then bump `chunk_count`
and `total_size`. -/
def updateStats (m : List (String × DocStats)) (c : Chunk) : List (String × DocStats) :=
  let cur := (m.lookup c.filename).getD
    { filename := c.filename, chunk_count := 0, total_size := 0 }
  dictInsert c.filename
    { filename := c.filename, chunk_count := cur.chunk_count + 1,
      total_size := cur.total_size + c.chunk_size } m

/-- The dict `{"filename": ..., "chunk_count": ..., "total_size": ...}`
returned per document (lines 170-174). -/
def statsToDict (st : DocStats) : List (String × StatVal) :=
  [("filename", StatVal.s st.filename),
   ("chunk_count", StatVal.n st.chunk_count),
   ("total_size", StatVal.n st.total_size)]

/-- `KnowledgeBase.list_documents` (lines 162-182): group `documents_data`
by filename (first-seen order) and return the list of per-document stats
dicts. -/
def list_documents (kb : KnowledgeBase) : List (List (String × StatVal)) :=
  (kb.documents_data.foldl (fun m p => updateStats m p.2) []).map
    (fun p => statsToDict p.2)

/-- The lockstep invariant of the two maps (spec §3): every key of the
text-metadata map is a key of the embedding map and vice versa. -/
def keysLockstep (kb : KnowledgeBase) : Prop :=
  (∀ k ∈ dictKeys kb.documents_data, k ∈ dictKeys kb.embeddings_data) ∧
  (∀ k ∈ dictKeys kb.embeddings_data, k ∈ dictKeys kb.documents_data)

instance (kb : KnowledgeBase) : Decidable (keysLockstep kb) := by
  unfold keysLockstep; infer_instance

/-! ## `ChatHandler` (src/backend/chat_handler.py)

The Databricks LLM endpoint call `_generate_databricks_response` is an
external HTTP request that can time out or fail; it enters the model as an
`Except`-valued parameter `llm`. -/

/-- Python `str.split(sep)` for a single-character separator: split the
character list at every character satisfying `p`, keeping empty pieces
(`"".split(".") == [""]`). -/
def splitOnPred (p : Char → Bool) : List Char → List (List Char)
  | [] => [[]]
  | x :: xs =>
    match splitOnPred p xs with
    | [] => [[]]
    | h :: t => if p x then [] :: h :: t else (x :: h) :: t

/-- Python `s.split()` with no separator: split on whitespace runs,
dropping empty pieces. -/
def pySplitWs (l : List Char) : List (List Char) :=
  (splitOnPred Char.isWhitespace l).filter (fun w => !w.isEmpty)

/-- Python substring test `w in s`. -/
def isSubList (w : List Char) : List Char → Bool
  | [] => w.isEmpty
  | x :: xs => w.isPrefixOf (x :: xs) || isSubList w xs

/-- Python `sep.join(parts)`. -/
def joinSep (sep : List Char) : List (List Char) → List Char
  | [] => []
  | [x] => x
  | x :: y :: t => x ++ sep ++ joinSep sep (y :: t)

/-- `_generate_no_content_response` (lines 217-221). -/
def noContentResponse : String :=
  "I don\x27t have any documents uploaded yet to answer your question. \n        \nPlease upload some PDF or Word documents first using the Documents tab, then ask your question again."

/-- `_generate_no_relevant_content_response` (lines 223-230). -/
def noRelevantContentResponse : String :=
  "I couldn\x27t find relevant information in the uploaded documents to answer your question. \n        \nThis could mean:\n- The documents don\x27t contain information about your topic\n- Try rephrasing your question with different keywords\n- Upload additional documents that might contain the information you\x27re looking for"

/-- `ChatHandler._generate_fallback_response` (lines 187-215): simple
keyword matching over the top-3 documents; returns sentences containing a
query word, or a 300-character prefix of the most relevant document. -/
def generateFallbackResponse (query : String) (documents : List String) : String :=
  let context := joinSep " ".data ((documents.take 3).map String.data)
  let query_words := pySplitWs (query.data.map Char.toLower)
  let sentences := splitOnPred (fun c => c == '.') context
  let relevant_sentences :=
    (sentences.filter
      (fun s => query_words.any (fun w => isSubList w (s.map Char.toLower)))).map pyStrip
  if relevant_sentences ≠ [] then
    String.mk ("Based on the uploaded documents: ".data ++
      joinSep ". ".data (relevant_sentences.take 3) ++ ".".data)
  else
    let first_doc := (documents.headD "").data
    let first_doc := if 300 < first_doc.length then first_doc.take 300 ++ "...".data else first_doc
    String.mk ("Based on the uploaded documents, here\x27s relevant information: ".data ++ first_doc)

/-- The distance threshold used to filter retrieved chunks (line 88). -/
def distanceThreshold : ℚ := 1

/-- `ChatHandler.generate_response` (lines 76-115): retrieve the top 5
chunks, filter by `distance < 1.0`, and produce the answer.  With
`use_openai = true` the LLM endpoint is called and — the call being
fallible — a failure is caught and replaced by the fixed string
`"Exception in Databricks LLM response generation"`; the call to
`_generate_fallback_response` is commented out in the source on both
branches.  `list(set(relevant_sources))` has unspecified order in Python;
the model keeps first-occurrence order. -/
def generate_response (encode : String → Except String (List ℚ))
    (sim : List ℚ → List ℚ → ℚ)
    (llm : String → List String → Except String String)
    (kb : KnowledgeBase) (query : String) (use_openai : Bool) :
    String × List String :=
  let r := search_similar encode sim kb query 5
  let documents := r.1
  let sources := r.2.1
  let distances := r.2.2
  if documents = [] then (noContentResponse, [])
  else
    let triples := documents.zip (sources.zip distances)
    let relevant := triples.filter (fun t => decide (t.2.2 < distanceThreshold))
    let relevant_docs := relevant.map (fun t => t.1)
    let relevant_sources := relevant.map (fun t => t.2.1)
    if relevant_docs = [] then (noRelevantContentResponse, [])
    else
      let response :=
        if use_openai then
          match llm query relevant_docs with
          | .ok resp => resp
          | .error _ => "Exception in Databricks LLM response generation"
        else "No fallback method used"
      (response, relevant_sources.eraseDups)

/-! ## Concrete stores used by counterexamples and witnesses -/

/-- A one-chunk store (document `d.pdf`, chunk text `"alpha beta"`). -/
def kbOne : KnowledgeBase :=
  { documents_data := [("d.pdf_chunk_0", mkChunk "d.pdf" 0 "alpha beta")]
    embeddings_data := [("d.pdf_chunk_0", [1])] }

/-! ### C6: embedding failure during `search_similar` -/

/-- C6 counterexample: on a non-empty store, when the embedding computation
fails (`encode` returns an error), `search_similar` does not propagate the
failure — the `try/except` swallows the error raised inside the body and
the call silently succeeds with three empty lists. -/
theorem search_similar_embed_error_cx_C6 :
    searchSimilarBody (fun _ => .error "embedding failure") (fun _ _ => 0)
      kbOne "q" 5 = .error "embedding failure" ∧
    search_similar (fun _ => .error "embedding failure") (fun _ _ => 0)
      kbOne "q" 5 = ([], [], []) :=
  ⟨rfl, rfl⟩

/-- C6 (amended): if the embedding computation fails during
`search_similar`, the error is caught by the surrounding `try/except`,
logged, and the call returns three empty lists to the caller instead of
raising. -/
theorem search_similar_embed_error_C6 (encode : String → Except String (List ℚ))
    (sim : List ℚ → List ℚ → ℚ) (kb : KnowledgeBase) (query : String)
    (n_results : Nat) (e : String) (henc : encode query = .error e) :
    search_similar encode sim kb query n_results = ([], [], []) := by
  unfold search_similar searchSimilarBody
  by_cases hkb : kb.documents_data = [] ∨ kb.embeddings_data = []
  · rw [if_pos hkb]
  · rw [if_neg hkb, henc]

theorem search_similar_embed_error_C6_witness :
    search_similar (fun _ => .error "boom") (fun _ _ => 0) kbOne "q" 5 = ([], [], []) :=
  search_similar_embed_error_C6 (fun _ => .error "boom") (fun _ _ => 0) kbOne "q" 5 "boom" rfl

/-! ### C9: `remove_document` of an absent document is a no-op -/

/-- C9: if no chunk of the store belongs to document `fname`, then
`remove_document fname` changes nothing: the in-memory maps and the
persisted files are returned unchanged (no save happens), no error is
raised, and `list_documents` gives the same output as before. -/
theorem remove_document_noop_C9 (kb : KnowledgeBase) (s : Storage) (fname : String)
    (h : ∀ p ∈ kb.documents_data, p.2.filename ≠ fname) :
    remove_document kb s fname = (kb, s) ∧
    list_documents (remove_document kb s fname).1 = list_documents kb := by
  have hfil : kb.documents_data.filter (fun p => p.2.filename == fname) = [] := by
    rw [List.filter_eq_nil_iff]
    intro p hp
    simpa using h p hp
  have h1 : remove_document kb s fname = (kb, s) := by
    unfold remove_document
    rw [hfil]
    simp
  exact ⟨h1, by rw [h1]⟩

theorem remove_document_noop_C9_witness :
    remove_document kbOne { documents_file := none, embeddings_file := none }
      "missing.pdf" = (kbOne, { documents_file := none, embeddings_file := none }) ∧
    list_documents (remove_document kbOne
      { documents_file := none, embeddings_file := none } "missing.pdf").1 =
      list_documents kbOne :=
  remove_document_noop_C9 kbOne { documents_file := none, embeddings_file := none }
    "missing.pdf" (by decide)

/-! ### C3: LLM failure during `generate_response` -/

/-- C3 counterexample: with a one-chunk store whose chunk is retrieved as
relevant and an LLM call that fails, `generate_response` answers with the
fixed string `"Exception in Databricks LLM response generation"` — not
with the chunk-derived fallback `_generate_fallback_response` would
produce (that call is commented out in the source), so the degraded answer
is not derived from the retrieved chunk text. -/
theorem generate_response_llm_failure_cx_C3 :
    generate_response (fun _ => .ok [1]) (fun _ _ => 1/2)
      (fun _ _ => .error "Request timeout") kbOne "alpha" true =
      ("Exception in Databricks LLM response generation", ["d.pdf"]) ∧
    generateFallbackResponse "alpha" ["alpha beta"] =
      "Based on the uploaded documents: alpha beta." ∧
    "Exception in Databricks LLM response generation" ≠
      "Based on the uploaded documents: alpha beta." := by
  refine ⟨?_, by decide, by decide⟩
  norm_num [generate_response, search_similar, searchSimilarBody, argsortAsc, kbOne,
    mkChunk, distanceThreshold, pairLE, List.lookup, List.insertionSort, List.orderedInsert,
    List.enum, List.enumFrom, List.eraseDups, List.eraseDups.loop, List.filter]

/-- C3 (amended): when the LLM answer-generation call fails during
`generate_response` (with the LLM enabled), the error is not raised to the
caller: the call returns normally, and whenever the retrieval stage found
relevant chunks the answer is the fixed string
`"Exception in Databricks LLM response generation"` (the chunk-derived
fallback is commented out in the source); otherwise it is one of the two
no-content messages. -/
theorem generate_response_llm_failure_C3 (encode : String → Except String (List ℚ))
    (sim : List ℚ → List ℚ → ℚ) (llm : String → List String → Except String String)
    (kb : KnowledgeBase) (query : String)
    (hllm : ∀ q ds, ∃ e, llm q ds = .error e) :
    (generate_response encode sim llm kb query true).1 = noContentResponse ∨
    (generate_response encode sim llm kb query true).1 = noRelevantContentResponse ∨
    (generate_response encode sim llm kb query true).1 =
      "Exception in Databricks LLM response generation" := by
  unfold generate_response
  dsimp only
  split
  · exact Or.inl rfl
  · split
    · exact Or.inr (Or.inl rfl)
    · right; right
      obtain ⟨e, he⟩ := hllm query _
      rw [he]
      rfl

theorem generate_response_llm_failure_C3_witness :
    (generate_response (fun _ => .ok [1]) (fun _ _ => 1/2)
      (fun _ _ => .error "Request timeout") kbOne "alpha" true).1 = noContentResponse ∨
    (generate_response (fun _ => .ok [1]) (fun _ _ => 1/2)
      (fun _ _ => .error "Request timeout") kbOne "alpha" true).1 = noRelevantContentResponse ∨
    (generate_response (fun _ => .ok [1]) (fun _ _ => 1/2)
      (fun _ _ => .error "Request timeout") kbOne "alpha" true).1 =
      "Exception in Databricks LLM response generation" :=
  generate_response_llm_failure_C3 (fun _ => .ok [1]) (fun _ _ => 1/2)
    (fun _ _ => .error "Request timeout") kbOne "alpha"
    (fun _ _ => ⟨"Request timeout", rfl⟩)

/-! ### C7: round-trip persistence of `add_document` -/

/-- C7 counterexample: after persisting `add_document("a.pdf", ["chunk one",
"chunk two"])` and reloading, the single `list_documents()` entry has no
`"document_id"` key at all — the source emits the key `"filename"`
(knowledge_base.py line 171), so looking up `"document_id"` yields nothing. -/
theorem add_document_roundtrip_cx_C7 :
    (add_document (fun ts => .ok (ts.map (fun _ => ([1] : List ℚ))))
      (loadKnowledgeBase { documents_file := none, embeddings_file := none })
      "a.pdf" ["chunk one", "chunk two"]).map
      (fun r => (list_documents (loadKnowledgeBase r.2)).map
        (fun entry => entry.lookup "document_id")) = .ok [none] := rfl

/-- C7 (amended): for every (successful) embedding function, adding
`"a.pdf"` with chunks `"chunk one"`, `"chunk two"` to a fresh empty store
persists, and a fresh store loaded from the resulting storage reports a
single `list_documents()` entry `{"filename": "a.pdf", "chunk_count": 2,
"total_size": len("chunk one") + len("chunk two")}` — the entry's document
key is `"filename"`, not `"document_id"`. -/
theorem add_document_roundtrip_C7 (f : String → List ℚ) :
    ∃ kb1 s1,
      add_document (fun ts => .ok (ts.map f))
        (loadKnowledgeBase { documents_file := none, embeddings_file := none })
        "a.pdf" ["chunk one", "chunk two"] = .ok (kb1, s1) ∧
      list_documents (loadKnowledgeBase s1) =
        [[("filename", StatVal.s "a.pdf"), ("chunk_count", StatVal.n 2),
          ("total_size", StatVal.n ("chunk one".length + "chunk two".length))]] := by
  refine ⟨_, _, rfl, rfl⟩

/-! ### C5: the lockstep invariant of the two maps -/

theorem mem_dictKeys_dictInsert {α : Type} (k k' : String) (v : α)
    (d : List (String × α)) :
    k' ∈ dictKeys (dictInsert k v d) ↔ k' ∈ dictKeys d ∨ k' = k := by
  unfold dictInsert dictKeys
  split
  case isTrue h =>
    have hk : k ∈ d.map Prod.fst := by
      rcases List.any_eq_true.mp h with ⟨p, hp, hpk⟩
      exact List.mem_map.mpr ⟨p, hp, by simpa using hpk⟩
    have hmap : (d.map (fun p => if p.1 == k then (k, v) else p)).map Prod.fst =
        d.map Prod.fst := by
      rw [List.map_map]
      refine List.map_congr_left ?_
      intro p _
      by_cases hpk : p.1 = k
      · simp [hpk]
      · simp [hpk]
    rw [hmap]
    constructor
    · exact Or.inl
    · rintro (hmem | rfl)
      · exact hmem
      · exact hk
  case isFalse h =>
    simp

theorem mem_dictKeys_dictDelete {α : Type} (k k' : String) (d : List (String × α)) :
    k' ∈ dictKeys (dictDelete k d) ↔ k' ∈ dictKeys d ∧ k' ≠ k := by
  unfold dictDelete dictKeys
  simp only [List.mem_map, List.mem_filter]
  constructor
  · rintro ⟨p, ⟨hp, hne⟩, rfl⟩
    exact ⟨⟨p, hp, rfl⟩, by simpa using hne⟩
  · rintro ⟨⟨p, hp, rfl⟩, hne⟩
    exact ⟨p, ⟨hp, by simpa using hne⟩, rfl⟩

theorem keysLockstep_insert (k : String) (v : Chunk) (w : List ℚ)
    (dd : List (String × Chunk)) (ed : List (String × List ℚ))
    (h : keysLockstep { documents_data := dd, embeddings_data := ed }) :
    keysLockstep { documents_data := dictInsert k v dd, embeddings_data := dictInsert k w ed } := by
  obtain ⟨h1, h2⟩ := h
  constructor
  · intro k' hk'
    rcases (mem_dictKeys_dictInsert k k' v dd).mp hk' with hmem | rfl
    · exact (mem_dictKeys_dictInsert k k' w ed).mpr (Or.inl (h1 k' hmem))
    · exact (mem_dictKeys_dictInsert k' k' w ed).mpr (Or.inr rfl)
  · intro k' hk'
    rcases (mem_dictKeys_dictInsert k k' w ed).mp hk' with hmem | rfl
    · exact (mem_dictKeys_dictInsert k k' v dd).mpr (Or.inl (h2 k' hmem))
    · exact (mem_dictKeys_dictInsert k' k' v dd).mpr (Or.inr rfl)

theorem insertChunks_lockstep (fn : String) :
    ∀ (cs : List String) (es : List (List ℚ)) (i : Nat)
      (dd dd' : List (String × Chunk)) (ed ed' : List (String × List ℚ)),
      insertChunks fn i cs es dd ed = some (dd', ed') →
      keysLockstep { documents_data := dd, embeddings_data := ed } →
      keysLockstep { documents_data := dd', embeddings_data := ed' }
  | [], _, _, _, _, _, _, heq, h => by
    cases heq
    exact h
  | _ :: _, [], _, _, _, _, _, heq, _ => by
    cases heq
  | c :: cs, e :: es, i, dd, dd', ed, ed', heq, h =>
    insertChunks_lockstep fn cs es (i + 1) _ dd' _ ed' heq
      (keysLockstep_insert (chunkKey fn i) (mkChunk fn i c) e dd ed h)

theorem keysLockstep_empty :
    keysLockstep { documents_data := [], embeddings_data := [] } := by
  constructor <;> intro k hk <;> simp [dictKeys] at hk

theorem keysLockstep_deleteFold (ks : List String) :
    ∀ (dd : List (String × Chunk)) (ed : List (String × List ℚ)),
      keysLockstep { documents_data := dd, embeddings_data := ed } →
      keysLockstep
        { documents_data := ks.foldl (fun d k => dictDelete k d) dd,
          embeddings_data := ks.foldl (fun d k => dictDelete k d) ed } := by
  induction ks with
  | nil => intro dd ed h; exact h
  | cons k ks ih =>
    intro dd ed h
    refine ih (dictDelete k dd) (dictDelete k ed) ?_
    obtain ⟨h1, h2⟩ := h
    constructor
    · intro k' hk'
      obtain ⟨hmem, hne⟩ := (mem_dictKeys_dictDelete k k' dd).mp hk'
      exact (mem_dictKeys_dictDelete k k' ed).mpr ⟨h1 k' hmem, hne⟩
    · intro k' hk'
      obtain ⟨hmem, hne⟩ := (mem_dictKeys_dictDelete k k' ed).mp hk'
      exact (mem_dictKeys_dictDelete k k' dd).mpr ⟨h2 k' hmem, hne⟩

/-- C5 counterexample: the state produced by loading persisted files is not
always in lockstep — if `documents.json` parses to a non-empty map while
`embeddings.pkl` is missing or unreadable, `_load_documents` returns the
map and `_load_embeddings` independently falls back to `{}`, so the loaded
store has a chunk key with no corresponding vector. -/
theorem keysLockstep_load_cx_C5 :
    ¬ keysLockstep (loadKnowledgeBase
      { documents_file := some [("a.pdf_chunk_0", mkChunk "a.pdf" 0 "t")],
        embeddings_file := none }) := by
  decide

/-- C5 (amended): the lockstep invariant (equal chunk-key sets in the two
maps) holds in the state loaded from fresh storage (both files absent) and
whenever the two files load to key-locked maps, and it is preserved by
every mutating operation: a successful `add_document`, `remove_document`
and `clear_all` all map lockstep states to lockstep states.  It is *not*
established by construction when exactly one persisted file is readable
(see the counterexample). -/
theorem keysLockstep_ops_C5 :
    keysLockstep (loadKnowledgeBase { documents_file := none, embeddings_file := none }) ∧
    (∀ (dd : List (String × Chunk)) (ed : List (String × List ℚ)),
      keysLockstep { documents_data := dd, embeddings_data := ed } →
      keysLockstep (loadKnowledgeBase
        { documents_file := some dd, embeddings_file := some ed })) ∧
    (∀ (encode : List String → Except String (List (List ℚ)))
       (kb : KnowledgeBase) (fn : String) (cs : List String)
       (kb' : KnowledgeBase) (s' : Storage),
      keysLockstep kb → add_document encode kb fn cs = .ok (kb', s') →
      keysLockstep kb') ∧
    (∀ (kb : KnowledgeBase) (s : Storage) (fn : String),
      keysLockstep kb → keysLockstep (remove_document kb s fn).1) ∧
    (∀ kb : KnowledgeBase, keysLockstep (clear_all kb).1) := by
  refine ⟨?_, ?_, ?_, ?_, ?_⟩
  · exact keysLockstep_empty
  · intro dd ed h
    exact h
  · intro encode kb fn cs kb' s' h heq
    unfold add_document at heq
    revert heq
    cases henc : encode cs with
    | error e => intro heq; exact Except.noConfusion heq
    | ok embs =>
      dsimp only
      cases hins : insertChunks fn 0 cs embs kb.documents_data kb.embeddings_data with
      | none => intro heq; exact Except.noConfusion heq
      | some r =>
        obtain ⟨dd, ed⟩ := r
        intro heq
        injection heq with hpair
        have hkb : kb' = { documents_data := dd, embeddings_data := ed } := by
          cases hpair; rfl
        rw [hkb]
        exact insertChunks_lockstep fn cs embs 0 kb.documents_data dd
          kb.embeddings_data ed hins h
  · intro kb s fn h
    unfold remove_document
    dsimp only
    split
    · exact keysLockstep_deleteFold _ kb.documents_data kb.embeddings_data h
    · exact keysLockstep_deleteFold _ kb.documents_data kb.embeddings_data h
  · intro kb
    exact keysLockstep_empty

theorem keysLockstep_ops_C5_witness :
    keysLockstep (remove_document kbOne
      { documents_file := none, embeddings_file := none } "missing.pdf").1 :=
  keysLockstep_ops_C5.2.2.2.1 kbOne
    { documents_file := none, embeddings_file := none } "missing.pdf" (by decide)

/-! ## Injectivity of the decimal chunk keys

`chunkKey filename i` embeds the decimal representation of `i`
(`f"{filename}_chunk_{i}"`), so distinct chunk indices of one document get
distinct keys.  Core's `Nat.repr` is evaluated through `Nat.toDigitsCore`;
the following reference digit function and roundtrip argument establish
its injectivity. -/

/-- Most-significant-first decimal digits of `n` (reference definition for
`Nat.toDigitsCore`). -/
def natDigits (n : Nat) : List Char :=
  if _h : n < 10 then [Nat.digitChar n]
  else natDigits (n / 10) ++ [Nat.digitChar (n % 10)]
decreasing_by exact Nat.div_lt_self (by omega) (by omega)

theorem natDigits_ne_nil (n : Nat) : natDigits n ≠ [] := by
  unfold natDigits
  split
  · simp
  · simp

theorem toDigitsCore_eq_natDigits (fuel : Nat) :
    ∀ (n : Nat) (acc : List Char), n < fuel →
      Nat.toDigitsCore 10 fuel n acc = natDigits n ++ acc := by
  induction fuel with
  | zero => intro n acc h; omega
  | succ f ih =>
    intro n acc h
    simp only [Nat.toDigitsCore]
    by_cases h0 : n / 10 = 0
    · have hn : n < 10 := (Nat.div_eq_zero_iff (by omega)).mp h0
      rw [if_pos h0]
      unfold natDigits
      rw [dif_pos hn, Nat.mod_eq_of_lt hn]
      rfl
    · have hge : 10 ≤ n := by
        by_contra hlt
        push_neg at hlt
        exact h0 ((Nat.div_eq_zero_iff (by omega)).mpr hlt)
      have hlt : n / 10 < f :=
        lt_of_lt_of_le (Nat.div_lt_self (by omega) (by omega)) (by omega)
      rw [if_neg h0, ih (n / 10) _ hlt]
      conv_rhs => rw [natDigits]
      rw [dif_neg (by omega)]
      simp

theorem natRepr_eq_natDigits (n : Nat) : Nat.repr n = (natDigits n).asString := by
  unfold Nat.repr Nat.toDigits
  rw [toDigitsCore_eq_natDigits (n + 1) n [] (Nat.lt_succ_self n)]
  simp

theorem digitChar_inj_lt : ∀ a < 10, ∀ b < 10,
    Nat.digitChar a = Nat.digitChar b → a = b := by decide

theorem natDigits_inj : ∀ m n : Nat, natDigits m = natDigits n → m = n := by
  intro m
  induction m using Nat.strong_induction_on with
  | _ m ih =>
    intro n h
    by_cases hm : m < 10 <;> by_cases hn : n < 10
    · unfold natDigits at h
      rw [dif_pos hm, dif_pos hn] at h
      simp only [List.cons.injEq, and_true] at h
      exact digitChar_inj_lt m hm n hn h
    · exfalso
      unfold natDigits at h
      rw [dif_pos hm, dif_neg hn] at h
      have hlen := congrArg List.length h
      simp at hlen
      exact natDigits_ne_nil (n / 10) hlen
    · exfalso
      unfold natDigits at h
      rw [dif_neg hm, dif_pos hn] at h
      have hlen := congrArg List.length h
      simp at hlen
      exact natDigits_ne_nil (m / 10) hlen
    · unfold natDigits at h
      rw [dif_neg hm, dif_neg hn] at h
      obtain ⟨h1, h2⟩ := List.append_inj' h rfl
      have hdiv : m / 10 = n / 10 :=
        ih (m / 10) (Nat.div_lt_self (by omega) (by omega)) (n / 10) h1
      simp only [List.cons.injEq, and_true] at h2
      have hmod : m % 10 = n % 10 :=
        digitChar_inj_lt (m % 10) (Nat.mod_lt m (by omega)) (n % 10)
          (Nat.mod_lt n (by omega)) h2
      omega

theorem natReprData_inj (m n : Nat)
    (h : (Nat.repr m).data = (Nat.repr n).data) : m = n := by
  apply natDigits_inj
  rw [natRepr_eq_natDigits, natRepr_eq_natDigits] at h
  exact h

theorem chunkKey_inj (fn : String) (i j : Nat) (h : chunkKey fn i = chunkKey fn j) :
    i = j := by
  apply natReprData_inj
  unfold chunkKey at h
  have h' := congrArg String.data h
  simp only [String.data_append, List.append_assoc] at h'
  exact List.append_cancel_left (List.append_cancel_left h')

/-! ## Lookup behaviour of the dict operations -/

theorem lookup_map_update {α : Type} (k k' : String) (v : α) (hne : k' ≠ k) :
    ∀ d : List (String × α),
      (d.map (fun p => if p.1 == k then (k, v) else p)).lookup k' = d.lookup k' := by
  intro d
  induction d with
  | nil => rfl
  | cons p t ih =>
    obtain ⟨pk, pv⟩ := p
    rw [List.map_cons]
    by_cases hpk : pk = k
    · rw [if_pos (by simpa using hpk), List.lookup_cons, List.lookup_cons,
        beq_eq_false_iff_ne.mpr hne, beq_eq_false_iff_ne.mpr (by rw [hpk]; exact hne)]
      exact ih
    · rw [if_neg (by simpa using hpk), List.lookup_cons, List.lookup_cons]
      cases hkp : k' == pk
      · exact ih
      · rfl

theorem lookup_map_update_self {α : Type} (k : String) (v : α) :
    ∀ d : List (String × α), d.any (fun p => p.1 == k) = true →
      (d.map (fun p => if p.1 == k then (k, v) else p)).lookup k = some v := by
  intro d
  induction d with
  | nil => intro h; simp at h
  | cons p t ih =>
    obtain ⟨pk, pv⟩ := p
    intro h
    rw [List.map_cons]
    by_cases hpk : pk = k
    · rw [if_pos (by simpa using hpk), List.lookup_cons, beq_self_eq_true]
    · have hb : (pk == k) = false := beq_eq_false_iff_ne.mpr hpk
      have h' : t.any (fun p => p.1 == k) = true := by
        simpa [List.any_cons, hb] using h
      rw [if_neg (by simpa using hpk), List.lookup_cons,
        beq_eq_false_iff_ne.mpr (fun hc => hpk hc.symm)]
      exact ih h'

theorem lookup_append_absent {α : Type} (k : String) (v : α) :
    ∀ d : List (String × α), d.any (fun p => p.1 == k) = false →
      (d ++ [(k, v)]).lookup k = some v := by
  intro d
  induction d with
  | nil =>
    intro _
    rw [List.nil_append, List.lookup_cons, beq_self_eq_true]
  | cons p t ih =>
    obtain ⟨pk, pv⟩ := p
    intro h
    rw [List.any_cons] at h
    have hpk : ¬ pk = k := by
      intro hc
      simp [hc] at h
    have h' : t.any (fun p => p.1 == k) = false := by
      rcases Bool.or_eq_false_iff.mp h with ⟨_, h2⟩
      exact h2
    rw [List.cons_append, List.lookup_cons,
      beq_eq_false_iff_ne.mpr (fun hc => hpk hc.symm)]
    exact ih h'

theorem lookup_append_other {α : Type} (k k' : String) (v : α) (hne : k' ≠ k) :
    ∀ d : List (String × α), (d ++ [(k, v)]).lookup k' = d.lookup k' := by
  intro d
  induction d with
  | nil =>
    rw [List.nil_append, List.lookup_cons, beq_eq_false_iff_ne.mpr hne]
  | cons p t ih =>
    obtain ⟨pk, pv⟩ := p
    rw [List.cons_append, List.lookup_cons, List.lookup_cons]
    cases hkp : k' == pk
    · exact ih
    · rfl

theorem dictInsert_lookup_self {α : Type} (k : String) (v : α) (d : List (String × α)) :
    (dictInsert k v d).lookup k = some v := by
  unfold dictInsert
  split
  case isTrue h => exact lookup_map_update_self k v d h
  case isFalse h => exact lookup_append_absent k v d (Bool.eq_false_iff.mpr h)

theorem dictInsert_lookup_other {α : Type} (k k' : String) (v : α)
    (d : List (String × α)) (hne : k' ≠ k) :
    (dictInsert k v d).lookup k' = d.lookup k' := by
  unfold dictInsert
  split
  case isTrue _ => exact lookup_map_update k k' v hne d
  case isFalse _ => exact lookup_append_other k k' v hne d

/-! ### C10: `add_document` writes exactly the keys of the new chunks -/

/-- Specification of the chunk-insertion loop of `add_document`: starting
at index `i` with one embedding per chunk, it succeeds, leaves every key
other than `chunkKey fn (i+j)` (`j < |cs|`) untouched in both maps, and
maps `chunkKey fn (i+j)` to the `j`-th chunk record / embedding. -/
theorem insertChunks_spec (fn : String) (f : String → List ℚ) :
    ∀ (cs : List String) (i : Nat)
      (dd : List (String × Chunk)) (ed : List (String × List ℚ)),
      ∃ dd' ed', insertChunks fn i cs (cs.map f) dd ed = some (dd', ed') ∧
        (∀ k : String, (∀ j, j < cs.length → k ≠ chunkKey fn (i + j)) →
          dd'.lookup k = dd.lookup k ∧ ed'.lookup k = ed.lookup k) ∧
        (∀ j (hj : j < cs.length),
          dd'.lookup (chunkKey fn (i + j)) =
            some (mkChunk fn (i + j) (cs.get ⟨j, hj⟩)) ∧
          ed'.lookup (chunkKey fn (i + j)) = some (f (cs.get ⟨j, hj⟩))) := by
  intro cs
  induction cs with
  | nil =>
    intro i dd ed
    exact ⟨dd, ed, rfl, fun k _ => ⟨rfl, rfl⟩, fun j hj => absurd hj (by simp)⟩
  | cons c cs ih =>
    intro i dd ed
    obtain ⟨dd', ed', heq, hframe, hval⟩ := ih (i + 1)
      (dictInsert (chunkKey fn i) (mkChunk fn i c) dd)
      (dictInsert (chunkKey fn i) (f c) ed)
    refine ⟨dd', ed', heq, ?_, ?_⟩
    · intro k hk
      have hk0 : k ≠ chunkKey fn i := by
        have := hk 0 (by simp)
        simpa using this
      have hkrest : ∀ j, j < cs.length → k ≠ chunkKey fn (i + 1 + j) := by
        intro j hj
        have := hk (j + 1) (by simpa using Nat.succ_lt_succ hj)
        have harith : i + (j + 1) = i + 1 + j := by omega
        rwa [harith] at this
      obtain ⟨h1, h2⟩ := hframe k hkrest
      rw [h1, h2, dictInsert_lookup_other _ _ _ _ hk0, dictInsert_lookup_other _ _ _ _ hk0]
      exact ⟨rfl, rfl⟩
    · intro j hj
      match j with
      | 0 =>
        have hknotrest : ∀ j', j' < cs.length →
            chunkKey fn i ≠ chunkKey fn (i + 1 + j') := by
          intro j' _ hc
          have := chunkKey_inj fn i (i + 1 + j') hc
          omega
        obtain ⟨h1, h2⟩ := hframe (chunkKey fn i) hknotrest
        rw [Nat.add_zero]
        rw [h1, h2, dictInsert_lookup_self, dictInsert_lookup_self]
        exact ⟨rfl, rfl⟩
      | j' + 1 =>
        have hj' : j' < cs.length := by simpa using Nat.lt_of_succ_lt_succ hj
        have := hval j' hj'
        have harith : i + 1 + j' = i + (j' + 1) := by omega
        rw [harith] at this
        simpa using this

/-- C10: a successful `add_document(fn, cs)` writes exactly the keys
`fn ++ "_chunk_" ++ i` for `i < |cs|` into both maps and leaves every
other key unchanged; consequently re-adding a document with fewer chunks
leaves the stale higher-index records in both maps, and `list_documents`
still counts them — concretely, adding `"d.pdf"` with 3 chunks
(`"aaa"`, `"bb"`, `"c"`) and re-adding it with the single chunk `"zz"`
leaves a store whose `list_documents()` reports 3 chunks and total size
`2 + 2 + 1` for `"d.pdf"`. -/
theorem add_document_frame_C10 :
    (∀ (f : String → List ℚ) (kb : KnowledgeBase) (fn : String) (cs : List String),
      ∃ kb' s', add_document (fun ts => .ok (ts.map f)) kb fn cs = .ok (kb', s') ∧
        (∀ k : String, (∀ j, j < cs.length → k ≠ chunkKey fn j) →
          kb'.documents_data.lookup k = kb.documents_data.lookup k ∧
          kb'.embeddings_data.lookup k = kb.embeddings_data.lookup k) ∧
        (∀ j (hj : j < cs.length),
          kb'.documents_data.lookup (chunkKey fn j) =
            some (mkChunk fn j (cs.get ⟨j, hj⟩)) ∧
          kb'.embeddings_data.lookup (chunkKey fn j) = some (f (cs.get ⟨j, hj⟩)))) ∧
    (∃ kb1 s1 kb2 s2,
      add_document (fun ts => .ok (ts.map (fun _ => ([1] : List ℚ))))
        { documents_data := [], embeddings_data := [] } "d.pdf" ["aaa", "bb", "c"] =
        .ok (kb1, s1) ∧
      add_document (fun ts => .ok (ts.map (fun _ => ([1] : List ℚ))))
        kb1 "d.pdf" ["zz"] = .ok (kb2, s2) ∧
      list_documents kb2 =
        [[("filename", StatVal.s "d.pdf"), ("chunk_count", StatVal.n 3),
          ("total_size", StatVal.n 5)]]) := by
  constructor
  · intro f kb fn cs
    obtain ⟨dd', ed', heq, hframe, hval⟩ :=
      insertChunks_spec fn f cs 0 kb.documents_data kb.embeddings_data
    refine ⟨{ documents_data := dd', embeddings_data := ed' },
      { documents_file := some dd', embeddings_file := some ed' }, ?_, ?_, ?_⟩
    · unfold add_document
      dsimp only
      rw [heq]
    · intro k hk
      exact hframe k (by simpa using hk)
    · intro j hj
      have := hval j hj
      simpa using this
  · exact ⟨_, _, _, _, rfl, rfl, rfl⟩

theorem add_document_frame_C10_witness :
    ∃ kb' s',
      add_document (fun ts => .ok (ts.map (fun _ => ([1] : List ℚ))))
        kbOne "x.pdf" ["zz"] = .ok (kb', s') ∧
      kb'.documents_data.lookup "d.pdf_chunk_0" =
        some (mkChunk "d.pdf" 0 "alpha beta") := by
  obtain ⟨kb', s', heq, hframe, _⟩ :=
    add_document_frame_C10.1 (fun _ => [1]) kbOne "x.pdf" ["zz"]
  refine ⟨kb', s', heq, ?_⟩
  rw [(hframe "d.pdf_chunk_0" (by decide)).1]
  rfl

/-! ## Properties of the argsort model -/

theorem insertionSortPairs_sorted (l : List ℚ) :
    List.Sorted pairLE (List.insertionSort pairLE l.enum) :=
  List.sorted_insertionSort pairLE l.enum

/-- Every pair of the sorted enumeration is a genuine (index, value) pair
of `l`. -/
theorem insertionSortPairs_char (l : List ℚ) (p : Nat × ℚ)
    (hp : p ∈ List.insertionSort pairLE l.enum) :
    p.1 < l.length ∧ p.2 = l.getD p.1 0 := by
  have hmem : p ∈ l.enum := (List.mem_insertionSort pairLE).mp hp
  have hsome := List.mem_enum_iff_getElem?.mp hmem
  constructor
  · exact (List.getElem?_eq_some.mp hsome).1
  · rw [List.getD_eq_getElem?_getD, hsome]
    rfl

theorem argsortAsc_perm_range (l : List ℚ) :
    List.Perm (argsortAsc l) (List.range l.length) := by
  unfold argsortAsc
  have h1 : List.Perm ((List.insertionSort pairLE l.enum).map Prod.fst)
      (l.enum.map Prod.fst) :=
    (List.perm_insertionSort pairLE l.enum).map Prod.fst
  rwa [List.enum_map_fst] at h1

theorem argsortAsc_pairwise (l : List ℚ) :
    List.Pairwise (fun i j : Nat =>
      l.getD i 0 < l.getD j 0 ∨ (l.getD i 0 = l.getD j 0 ∧ i ≤ j)) (argsortAsc l) := by
  unfold argsortAsc
  rw [List.pairwise_map]
  refine List.Pairwise.imp_of_mem ?_ (insertionSortPairs_sorted l)
  intro p q hp hq hpq
  obtain ⟨_, hpv⟩ := insertionSortPairs_char l p hp
  obtain ⟨_, hqv⟩ := insertionSortPairs_char l q hq
  rw [← hpv, ← hqv]
  exact hpq

/-! ### C8: order of equal-similarity results -/

/-- A store with two chunks (`t0` at array index 0, `t1` at index 1). -/
def kbTie : KnowledgeBase :=
  { documents_data := [("a.pdf_chunk_0", mkChunk "a.pdf" 0 "t0"),
      ("a.pdf_chunk_1", mkChunk "a.pdf" 1 "t1")]
    embeddings_data := [("a.pdf_chunk_0", [0]), ("a.pdf_chunk_1", [1])] }

/-- C8 counterexample: with two stored chunks at the *same* similarity to
the query (both `1/2`), the similarity array is `[1/2, 1/2]` with `t0`'s
entry first, but `search_similar` returns `t1` first: the ascending
argsort is reversed, so equal-similarity results come out in the reverse
of their order in the underlying similarity array, not in array order as a
stable sort of that array would give. -/
theorem search_ties_cx_C8 :
    search_similar (fun _ => .ok [1]) (fun _ _ => mkRat 1 2) kbTie "q" 5 =
      (["t1", "t0"], ["a.pdf", "a.pdf"], [1 - mkRat 1 2, 1 - mkRat 1 2]) ∧
    (1 : ℚ) - mkRat 1 2 = 1/2 ∧ "t1" ≠ "t0" := by
  refine ⟨rfl, by norm_num [mkRat, Rat.normalize], by decide⟩

/-- C8 (amended): within one call the tie order is deterministic but
*reversed*: the code argsorts the similarity array ascending (stable:
ties keep array order) and then reverses; hence if entries `i < j` of the
similarity array hold equal values, index `j` appears strictly before
index `i` in the reversed order that drives the results. -/
theorem argsort_ties_reversed_C8 (l : List ℚ) (i j : Nat) (hij : i < j)
    (hj : j < l.length) (hv : l.getD i 0 = l.getD j 0) :
    ∀ a b : Nat, ∀ ha : a < (argsortAsc l).reverse.length,
      ∀ hb : b < (argsortAsc l).reverse.length,
      (argsortAsc l).reverse.get ⟨a, ha⟩ = j →
      (argsortAsc l).reverse.get ⟨b, hb⟩ = i → a < b := by
  intro a b ha hb hja hib
  have hlen : (argsortAsc l).reverse.length = (argsortAsc l).length :=
    List.length_reverse _
  have ha' : a < (argsortAsc l).length := hlen ▸ ha
  have hb' : b < (argsortAsc l).length := hlen ▸ hb
  have hxa : (argsortAsc l).length - 1 - a < (argsortAsc l).length := by omega
  have hxb : (argsortAsc l).length - 1 - b < (argsortAsc l).length := by omega
  have hja' : (argsortAsc l).get ⟨(argsortAsc l).length - 1 - a, hxa⟩ = j := by
    rw [List.get_eq_getElem, ← List.getElem_reverse (by simpa using ha')]
    exact hja
  have hib' : (argsortAsc l).get ⟨(argsortAsc l).length - 1 - b, hxb⟩ = i := by
    rw [List.get_eq_getElem, ← List.getElem_reverse (by simpa using hb')]
    exact hib
  have hpw := argsortAsc_pairwise l
  rcases lt_trichotomy ((argsortAsc l).length - 1 - a) ((argsortAsc l).length - 1 - b)
    with hxy | hxy | hxy
  · exfalso
    have hR := List.pairwise_iff_get.mp hpw
      ⟨(argsortAsc l).length - 1 - a, hxa⟩ ⟨(argsortAsc l).length - 1 - b, hxb⟩ hxy
    rw [hja', hib'] at hR
    rcases hR with hlt | ⟨_, hle⟩
    · rw [hv] at hlt
      exact absurd hlt (lt_irrefl _)
    · omega
  · exfalso
    have : j = i := by
      rw [← hja', ← hib']
      congr 1
      exact Fin.ext hxy
    omega
  · omega

theorem argsort_ties_reversed_C8_witness :
    (argsortAsc [mkRat 1 2, mkRat 1 2]).reverse = [1, 0] ∧ (0 : Nat) < 1 :=
  ⟨by decide,
   argsort_ties_reversed_C8 [mkRat 1 2, mkRat 1 2] 0 1 (by decide) (by decide)
     (by decide) 0 1 (by decide) (by decide) (by decide) (by decide)⟩

/-! ### C2: ranking contract of `search_similar` -/

/-- A three-chunk store whose embeddings are tagged `[0]`, `[1]`, `[2]`. -/
def kbC2 : KnowledgeBase :=
  { documents_data := [("a.pdf_chunk_0", mkChunk "a.pdf" 0 "text zero"),
      ("a.pdf_chunk_1", mkChunk "a.pdf" 1 "text one"),
      ("a.pdf_chunk_2", mkChunk "a.pdf" 2 "text two")]
    embeddings_data := [("a.pdf_chunk_0", [0]), ("a.pdf_chunk_1", [1]),
      ("a.pdf_chunk_2", [2])] }

/-- A similarity function that, by construction, puts the three stored
vectors of `kbC2` at cosine similarities 0.9, 0.5, 0.1 to the query. -/
def simC2 : List ℚ → List ℚ → ℚ := fun _ v =>
  if v = [0] then mkRat 9 10 else if v = [1] then mkRat 1 2 else mkRat 1 10

/-- C2: `search_similar` returns at most `k` results; the distances list
has the same length as the documents list and is ascending (descending
similarity, since `distance = 1 - similarity`); every result reports the
text and filename of a stored chunk and a distance equal to `1 -` the
similarity of that chunk's stored vector to the query embedding.  On the
concrete three-chunk store at similarities 0.9/0.5/0.1, `search_similar
(query, 2)` returns exactly the two highest-similarity chunks in
descending order with distances 0.1 and 0.5. -/
theorem search_similar_spec_C2 :
    (∀ (encode : String → Except String (List ℚ)) (sim : List ℚ → List ℚ → ℚ)
       (kb : KnowledgeBase) (query : String) (n_results : Nat) (qv : List ℚ),
      encode query = .ok qv →
      (search_similar encode sim kb query n_results).1.length ≤ n_results ∧
      (search_similar encode sim kb query n_results).2.2.length =
        (search_similar encode sim kb query n_results).1.length ∧
      List.Sorted (· ≤ ·) (search_similar encode sim kb query n_results).2.2 ∧
      (∀ i, i < (search_similar encode sim kb query n_results).1.length →
        ∃ cid vec chunk,
          (cid, vec) ∈ kb.embeddings_data ∧
          kb.documents_data.lookup cid = some chunk ∧
          (search_similar encode sim kb query n_results).1.getD i "" = chunk.text ∧
          (search_similar encode sim kb query n_results).2.1.getD i "" = chunk.filename ∧
          (search_similar encode sim kb query n_results).2.2.getD i 0 = 1 - sim qv vec)) ∧
    (search_similar (fun _ => .ok [9]) simC2 kbC2 "query" 2 =
      (["text zero", "text one"], ["a.pdf", "a.pdf"],
        [1 - mkRat 9 10, 1 - mkRat 1 2]) ∧
      (1 : ℚ) - mkRat 9 10 = 1/10 ∧ (1 : ℚ) - mkRat 1 2 = 1/2) := by
  constructor
  · intro encode sim kb query n_results qv henc
    by_cases hkb : kb.documents_data = [] ∨ kb.embeddings_data = []
    · have hr : search_similar encode sim kb query n_results = ([], [], []) := by
        unfold search_similar searchSimilarBody
        rw [if_pos hkb]
      rw [hr]
      refine ⟨by simp, by simp, by simp, ?_⟩
      intro i hi
      simp at hi
    · set F := kb.embeddings_data.filter
        (fun p => (kb.documents_data.lookup p.1).isSome) with hF
      set sims := F.map (fun p => sim qv p.2) with hsims
      set G := (fun idx : Nat =>
        ((((kb.documents_data.lookup ((F.map Prod.fst).getD idx "")).getD default).text,
          ((kb.documents_data.lookup ((F.map Prod.fst).getD idx "")).getD default).filename,
          1 - sims.getD idx 0) : String × String × ℚ)) with hG
      set sel := ((argsortAsc sims).reverse).take n_results with hsel
      set results := sel.map G with hres
      have hr : search_similar encode sim kb query n_results =
          (results.map (fun r => r.1), results.map (fun r => r.2.1),
           results.map (fun r => r.2.2)) := by
        unfold search_similar searchSimilarBody
        rw [if_neg hkb, henc]
      rw [hr]
      dsimp only
      set P := List.insertionSort pairLE sims.enum with hP
      set Q := (P.reverse).take n_results with hQ
      have hselQ : sel = Q.map Prod.fst := by
        rw [hsel, hQ]
        unfold argsortAsc
        rw [← hP, ← List.map_reverse, List.map_take]
      have hresQ : results = Q.map (fun q => G q.1) := by
        rw [hres, hselQ, List.map_map]
        rfl
      have hQsubP : ∀ p : Nat × ℚ, p ∈ Q → p ∈ P := by
        intro p hp
        exact List.mem_reverse.mp (List.take_subset _ _ hp)
      have hQchar : ∀ p ∈ Q, p.1 < sims.length ∧ p.2 = sims.getD p.1 0 :=
        fun p hp => insertionSortPairs_char sims p (hP ▸ hQsubP p hp)
      have hQpw : List.Pairwise (fun p q : Nat × ℚ => pairLE q p) Q := by
        have hrev : List.Pairwise (fun p q : Nat × ℚ => pairLE q p) P.reverse :=
          List.pairwise_reverse.mpr (hP ▸ insertionSortPairs_sorted sims)
        exact List.Pairwise.sublist (List.take_sublist _ _) hrev
      refine ⟨?_, ?_, ?_, ?_⟩
      · rw [List.length_map, hres, List.length_map, hsel, List.length_take]
        exact Nat.min_le_left _ _
      · simp only [List.length_map]
      · have hmaps : results.map (fun r => r.2.2) =
            Q.map (fun p => 1 - sims.getD p.1 0) := by
          rw [hresQ, List.map_map]
          rfl
        rw [hmaps]
        rw [List.Sorted, List.pairwise_map]
        refine List.Pairwise.imp_of_mem ?_ hQpw
        intro p q hp hq hpq
        obtain ⟨_, hpv⟩ := hQchar p hp
        obtain ⟨_, hqv⟩ := hQchar q hq
        have hle : sims.getD q.1 0 ≤ sims.getD p.1 0 := by
          rw [← hpv, ← hqv]
          rcases hpq with h | ⟨h, _⟩
          · exact le_of_lt h
          · exact le_of_eq h
        exact sub_le_sub_left hle 1
      · intro i hi
        rw [List.length_map] at hi
        have hiQ : i < Q.length := by
          rw [hresQ, List.length_map] at hi
          exact hi
        set p := Q.get ⟨i, hiQ⟩ with hpdef
        have hpQ : p ∈ Q := List.get_mem Q i hiQ
        obtain ⟨hplen, hpval⟩ := hQchar p hpQ
        have hsimsF : sims.length = F.length := by
          rw [hsims, List.length_map]
        have hpF : p.1 < F.length := by
          rw [← hsimsF]
          exact hplen
        set e := F.get ⟨p.1, hpF⟩ with hedef
        have heF : e ∈ F := List.get_mem F p.1 hpF
        have heEmb : e ∈ kb.embeddings_data := List.mem_of_mem_filter (hF ▸ heF)
        have hmf := List.mem_filter.mp (hF ▸ heF)
        have heSome : (kb.documents_data.lookup e.1).isSome = true := hmf.2
        obtain ⟨chunk, hchunk⟩ := Option.isSome_iff_exists.mp heSome
        have hcid : (F.map Prod.fst).getD p.1 "" = e.1 := by
          rw [List.getD_eq_getElem?_getD, List.getElem?_map,
            List.getElem?_eq_getElem hpF]
          rfl
        have hvec : sims.getD p.1 0 = sim qv e.2 := by
          rw [List.getD_eq_getElem?_getD, hsims, List.getElem?_map,
            List.getElem?_eq_getElem hpF]
          rfl
        have hGp : G p.1 = (chunk.text, chunk.filename, 1 - sim qv e.2) := by
          rw [hG]
          dsimp only
          rw [hcid, hchunk, hvec]
          rfl
        have hresi : results[i]? = some (G p.1) := by
          rw [hresQ, List.getElem?_map, List.getElem?_eq_getElem hiQ,
            Option.map_some']
          exact rfl
        refine ⟨e.1, e.2, chunk, heEmb, hchunk, ?_, ?_, ?_⟩
        · rw [List.getD_eq_getElem?_getD, List.getElem?_map, hresi,
            Option.map_some', Option.getD_some, hGp]
        · rw [List.getD_eq_getElem?_getD, List.getElem?_map, hresi,
            Option.map_some', Option.getD_some, hGp]
        · rw [List.getD_eq_getElem?_getD, List.getElem?_map, hresi,
            Option.map_some', Option.getD_some, hGp]
  · exact ⟨rfl, by norm_num [mkRat, Rat.normalize], by norm_num [mkRat, Rat.normalize]⟩

theorem search_similar_spec_C2_witness :
    (search_similar (fun _ => .ok [9]) simC2 kbC2 "query" 2).1.length ≤ 2 :=
  (search_similar_spec_C2.1 (fun _ => .ok [9]) simC2 kbC2 "query" 2 [9] rfl).1

end HackChatbot
